import Mathlib

/-!
Verification of the epoch-barrier aggregation engine of the
Simces-Sample-Component repository (`chalith_component.py`,
`chalith_message.py`).

The mutable instance attributes of `ChalithComponent` (together with the
fields `_latest_epoch`, `_triggering_message_ids` and `_completed_epoch`
inherited from the framework base class) are embedded as a record
`ChalithState`; each method of the component becomes a pure state
transformer.  Python sets become `Finset String`, the accumulator and the
configured own value are `String`, the causal-id list is `List String`.
Outgoing publications are returned as values of type `OutMsg` instead of
being sent on the wire.
-/

/-- One inbound peer message, the fields of `ChalithMessage` that
`general_message_handler` can consult: originating participant
(`source_process_id`), payload (`chalith_value`), unique id
(`message_id`) and the epoch tag (`epoch_number`). -/
structure ChalithMessage where
  source_process_id : String
  chalith_value : String
  message_id : String
  epoch_number : Nat
deriving DecidableEq

/-- The outgoing envelope built by `_send_chalith_message`: field values
taken from `_latest_epoch`, `_triggering_message_ids` and
`_current_message`. -/
structure OutMsg where
  epoch_number : Nat
  triggering_message_ids : List String
  chalith_value : String
deriving DecidableEq

/-- The controller state: the attributes set in `ChalithComponent.__init__`
(`chalith_value`, `_input_components`, `_current_message`,
`_current_input_components`) plus the framework-owned fields
`_latest_epoch`, `_triggering_message_ids` and `_completed_epoch`. -/
structure ChalithState where
  chalith_value : String
  input_components : Finset String
  current_message : String
  current_input_components : Finset String
  triggering_message_ids : List String
  latest_epoch : Nat
  completed_epoch : Option Nat
deriving DecidableEq

/-- The state set up by `ChalithComponent.__init__`: empty accumulator and
empty arrived set; the framework initializes the triggering-id list empty,
the latest epoch to 0 and no epoch completed yet. -/
def initialState (inputs : Finset String) (cv : String) : ChalithState :=
  { chalith_value := cv
    input_components := inputs
    current_message := ""
    current_input_components := ∅
    triggering_message_ids := []
    latest_epoch := 0
    completed_epoch := none }

/-- `ChalithComponent.clear_epoch_variables`: reset the accumulator to the
empty string and the arrived set to the empty set. -/
def clear_epoch_variables (s : ChalithState) : ChalithState :=
  { s with current_message := "", current_input_components := ∅ }

/-- `ChalithComponent.all_messages_received_for_epoch`: the Python set
equality `self._input_components == self._current_input_components`. -/
def all_messages_received_for_epoch (s : ChalithState) : Bool :=
  decide (s.input_components = s.current_input_components)

/-- `ChalithComponent.process_epoch` followed by `_send_chalith_message`:
if any peer contributed, append the component's own `chalith_value` to the
accumulator, otherwise replace the (empty) accumulator by `chalith_value`;
then publish an envelope with `_latest_epoch`, `_triggering_message_ids`
and the new `_current_message`. -/
def process_epoch (s : ChalithState) : ChalithState × OutMsg :=
  let newMessage :=
    if s.current_input_components ≠ ∅ then s.current_message ++ s.chalith_value
    else s.chalith_value
  let s' := { s with current_message := newMessage }
  (s', ⟨s'.latest_epoch, s'.triggering_message_ids, newMessage⟩)

/-- Modelled from the spec: `start_epoch` of the framework base class
`AbstractSimulationComponent` (not part of this repository) — when the
epoch state satisfies the completion predicate and the current epoch has
not already been finalized, invoke `process_epoch` (which publishes the
result envelope) and record the epoch as completed; otherwise do nothing.
This is the control flow of spec section 2 and the finalize-once rule of
spec section 3, invariant 3. -/
def start_epoch (s : ChalithState) : ChalithState × Option OutMsg :=
  if s.completed_epoch ≠ some s.latest_epoch ∧ all_messages_received_for_epoch s = true then
    let (s', out) := process_epoch s
    ({ s' with completed_epoch := some s.latest_epoch }, some out)
  else (s, none)

/-- `ChalithComponent.general_message_handler` on a `ChalithMessage`:
ignore a message whose source is not in `_input_components` (foreign) or
already in `_current_input_components` (duplicate); otherwise add the
source to the arrived set, append the payload to the accumulator, append
the message id to `_triggering_message_ids`, and call `start_epoch`. -/
def general_message_handler (s : ChalithState) (m : ChalithMessage) :
    ChalithState × Option OutMsg :=
  if m.source_process_id ∉ s.input_components then (s, none)
  else if m.source_process_id ∈ s.current_input_components then (s, none)
  else
    let s1 := { s with
      current_input_components := insert m.source_process_id s.current_input_components
      current_message := s.current_message ++ m.chalith_value
      triggering_message_ids := s.triggering_message_ids ++ [m.message_id] }
    start_epoch s1

/-- Modelled from the spec: the epoch-start signal (the framework's epoch
message handler, not part of this repository) — record the new epoch
number, reset the causal-id list, reset the epoch variables through the
component's `clear_epoch_variables`, and check the barrier once (an epoch
with no required peers is trivially complete; spec section 4.1,
`onEpochStart`). -/
def epochStart (s : ChalithState) (e : Nat) : ChalithState :=
  clear_epoch_variables { s with latest_epoch := e, triggering_message_ids := [] }

/-- Epoch-start signal together with the barrier check it triggers. -/
def on_epoch_start (s : ChalithState) (e : Nat) : ChalithState × Option OutMsg :=
  start_epoch (epochStart s e)

/-- Deliver a list of inbound messages one after the other, collecting the
envelopes published along the way. -/
def runFrom (s : ChalithState) : List ChalithMessage → ChalithState × List OutMsg
  | [] => (s, [])
  | m :: rest =>
    let (s1, out) := general_message_handler s m
    let (s2, outs) := runFrom s1 rest
    (s2, out.toList ++ outs)

/-- One whole epoch of a freshly constructed component: the epoch-start
signal for epoch `e`, then the inbound messages `ms` in arrival order. -/
def runEpoch (inputs : Finset String) (cv : String) (e : Nat)
    (ms : List ChalithMessage) : ChalithState × List OutMsg :=
  let (s1, out1) := on_epoch_start (initialState inputs cv) e
  let (s2, outs) := runFrom s1 ms
  (s2, out1.toList ++ outs)

/-- Concatenation of a list of strings in order, used to state what the
accumulator holds. -/
def concatAll : List String → String
  | [] => ""
  | v :: rest => v ++ concatAll rest

/-- The values of the messages that the handler folds into the accumulator
(arrival order), replaying the membership tests of
`general_message_handler`. -/
def acceptedValues (s : ChalithState) : List ChalithMessage → List String
  | [] => []
  | m :: rest =>
    if m.source_process_id ∉ s.input_components then acceptedValues s rest
    else if m.source_process_id ∈ s.current_input_components then acceptedValues s rest
    else m.chalith_value :: acceptedValues (general_message_handler s m).1 rest

/-- The exception classes caught by `ChalithMessage.from_json`:
`TypeError`, `ValueError` and `MessageError`. -/
inductive CtorError
  | typeError
  | valueError
  | messageError
deriving DecidableEq

/-- `ChalithMessage.from_json`: call the class constructor on the JSON
dictionary and return the message, returning `None` when construction
fails with one of the three caught exception classes.  The constructor
invoked as `cls(**json_message)` is framework base-class code outside this
repository, so it is represented abstractly: an arbitrary function from
the input dictionary to either a constructed message or a `CtorError`. -/
def ChalithMessage.from_json {α : Type} (ctor : α → Except CtorError ChalithMessage)
    (json_message : α) : Option ChalithMessage :=
  match ctor json_message with
  | Except.ok m => some m
  | Except.error _ => none

/-- C1: the completion predicate `all_messages_received_for_epoch` holds
exactly when the arrived set `_current_input_components` equals the
configured Expected Set `_input_components` as a set. -/
theorem all_messages_received_iff_arrived_eq_expected (s : ChalithState) :
    all_messages_received_for_epoch s = true ↔
      s.current_input_components = s.input_components := by
  simp [all_messages_received_for_epoch, eq_comm]

/-- C3: a contribution whose source is already in the arrived set for the
current epoch leaves the whole controller state unchanged and publishes
nothing: the accumulator, the causal-id list and the arrived set are
untouched. -/
theorem handler_ignores_duplicate (s : ChalithState) (m : ChalithMessage)
    (h : m.source_process_id ∈ s.current_input_components) :
    general_message_handler s m = (s, none) := by
  by_cases h1 : m.source_process_id ∈ s.input_components
  · simp [general_message_handler, h1, h]
  · simp [general_message_handler, h1]

/-- C3 witness: a second contribution from participant A, already arrived,
is discarded. -/
theorem handler_ignores_duplicate_witness :
    ("A" : String) ∈ ({"A"} : Finset String) ∧
      general_message_handler ⟨"v", {"A", "B"}, "x", {"A"}, ["m1"], 1, none⟩
          ⟨"A", "q", "m9", 1⟩
        = (⟨"v", {"A", "B"}, "x", {"A"}, ["m1"], 1, none⟩, none) :=
  ⟨by decide, handler_ignores_duplicate _ _ (by decide)⟩

/-- C4: a contribution whose source participant is not in the Expected Set
leaves the whole controller state unchanged and publishes nothing. -/
theorem handler_ignores_foreign (s : ChalithState) (m : ChalithMessage)
    (h : m.source_process_id ∉ s.input_components) :
    general_message_handler s m = (s, none) := by
  simp [general_message_handler, h]

/-- C4 witness: a contribution from participant C, outside the Expected Set
consisting of A and B, is discarded. -/
theorem handler_ignores_foreign_witness :
    ("C" : String) ∉ ({"A", "B"} : Finset String) ∧
      general_message_handler ⟨"v", {"A", "B"}, "x", {"A"}, ["m1"], 1, none⟩
          ⟨"C", "q", "m9", 1⟩
        = (⟨"v", {"A", "B"}, "x", {"A"}, ["m1"], 1, none⟩, none) :=
  ⟨by decide, handler_ignores_foreign _ _ (by decide)⟩

/-- C2 counterexample: the controller is at epoch 1, the Expected Set is
A and B and nothing has arrived; a contribution from A tagged with epoch 2
is nevertheless folded: the arrived set, the accumulator and the causal-id
list all change, refuting the claim that a contribution with a mismatched
epoch tag leaves the epoch state unchanged. -/
theorem epoch_mismatch_contribution_still_folded :
    (2 : Nat) ≠ (1 : Nat) ∧
      (general_message_handler ⟨"v", {"A", "B"}, "", ∅, [], 1, none⟩
          ⟨"A", "x", "m1", 2⟩).1.current_input_components ≠ (∅ : Finset String) ∧
      (general_message_handler ⟨"v", {"A", "B"}, "", ∅, [], 1, none⟩
          ⟨"A", "x", "m1", 2⟩).1.current_message ≠ "" ∧
      (general_message_handler ⟨"v", {"A", "B"}, "", ∅, [], 1, none⟩
          ⟨"A", "x", "m1", 2⟩).1.triggering_message_ids ≠ [] := by
  decide

/-- C2 amended: the message handler never consults the epoch tag of an
inbound contribution; its behaviour is identical for every value of the
message's `epoch_number` field, so a mismatched-epoch contribution is
processed exactly like a current-epoch one (folded when its source is an
expected, not-yet-arrived participant). -/
theorem handler_independent_of_epoch_tag (s : ChalithState) (m : ChalithMessage)
    (e : Nat) :
    general_message_handler s { m with epoch_number := e }
      = general_message_handler s m := rfl

/-- C5: with Expected Set A and B, own value the empty string (the seed)
and epoch 1, contributions from A (value x, id m1) then B (value y, id m2)
produce exactly one outbound envelope carrying epoch 1, value xy and the
causal ids m1 then m2. -/
theorem scenario_two_peers_single_envelope :
    (runEpoch {"A", "B"} "" 1 [⟨"A", "x", "m1", 1⟩, ⟨"B", "y", "m2", 1⟩]).2
      = [⟨1, ["m1", "m2"], "xy"⟩] := by decide

/-- C6: with an empty Expected Set the completion predicate already holds
at epoch start, and the envelope published at epoch start carries the
component's own configured value (the seed) as its value. -/
theorem empty_expected_set_trivially_complete (cv : String) (e : Nat) :
    all_messages_received_for_epoch (epochStart (initialState ∅ cv) e) = true ∧
      (on_epoch_start (initialState ∅ cv) e).2 = some ⟨e, [], cv⟩ := by
  constructor
  · simp [all_messages_received_for_epoch, epochStart, clear_epoch_variables, initialState]
  · simp [on_epoch_start, start_epoch, epochStart, clear_epoch_variables, initialState,
      process_epoch, all_messages_received_for_epoch]

lemma handler_eq_of_foreign (s : ChalithState) (m : ChalithMessage)
    (h : m.source_process_id ∉ s.input_components) :
    general_message_handler s m = (s, none) := by
  simp [general_message_handler, h]

lemma handler_eq_of_duplicate (s : ChalithState) (m : ChalithMessage)
    (h : m.source_process_id ∈ s.current_input_components) :
    general_message_handler s m = (s, none) := by
  by_cases h1 : m.source_process_id ∈ s.input_components
  · simp [general_message_handler, h1, h]
  · simp [general_message_handler, h1]

lemma handler_accept (s : ChalithState) (m : ChalithMessage)
    (h1 : m.source_process_id ∈ s.input_components)
    (h2 : m.source_process_id ∉ s.current_input_components) :
    general_message_handler s m = start_epoch { s with
      current_input_components := insert m.source_process_id s.current_input_components
      current_message := s.current_message ++ m.chalith_value
      triggering_message_ids := s.triggering_message_ids ++ [m.message_id] } := by
  simp [general_message_handler, h1, h2]

lemma handler_of_complete (s : ChalithState) (m : ChalithMessage)
    (h : s.current_input_components = s.input_components) :
    general_message_handler s m = (s, none) := by
  by_cases h1 : m.source_process_id ∈ s.input_components
  · exact handler_eq_of_duplicate s m (by rw [h]; exact h1)
  · exact handler_eq_of_foreign s m h1

lemma runFrom_cons_fst (s : ChalithState) (m : ChalithMessage) (rest : List ChalithMessage) :
    (runFrom s (m :: rest)).1 = (runFrom (general_message_handler s m).1 rest).1 := rfl

lemma runFrom_cons_snd (s : ChalithState) (m : ChalithMessage) (rest : List ChalithMessage) :
    (runFrom s (m :: rest)).2 =
      (general_message_handler s m).2.toList ++ (runFrom (general_message_handler s m).1 rest).2 := rfl

lemma runEpoch_eq (inputs : Finset String) (cv : String) (e : Nat) (ms : List ChalithMessage) :
    runEpoch inputs cv e ms =
      ((runFrom (on_epoch_start (initialState inputs cv) e).1 ms).1,
        (on_epoch_start (initialState inputs cv) e).2.toList ++
          (runFrom (on_epoch_start (initialState inputs cv) e).1 ms).2) := rfl

lemma start_epoch_of_not_complete (s : ChalithState)
    (h : s.input_components ≠ s.current_input_components) :
    start_epoch s = (s, none) := by
  simp [start_epoch, all_messages_received_for_epoch, h]

lemma start_epoch_complete (s : ChalithState)
    (hcmp : s.completed_epoch ≠ some s.latest_epoch)
    (h : s.input_components = s.current_input_components)
    (hne : s.current_input_components ≠ ∅) :
    start_epoch s =
      ({ s with
          current_message := s.current_message ++ s.chalith_value,
          completed_epoch := some s.latest_epoch },
       some ⟨s.latest_epoch, s.triggering_message_ids,
         s.current_message ++ s.chalith_value⟩) := by
  simp [start_epoch, process_epoch, all_messages_received_for_epoch, h, hcmp, hne]

lemma start_epoch_complete_empty (s : ChalithState)
    (hcmp : s.completed_epoch ≠ some s.latest_epoch)
    (h : s.input_components = s.current_input_components)
    (he : s.current_input_components = ∅) :
    start_epoch s =
      ({ s with
          current_message := s.chalith_value,
          completed_epoch := some s.latest_epoch },
       some ⟨s.latest_epoch, s.triggering_message_ids, s.chalith_value⟩) := by
  simp [start_epoch, process_epoch, all_messages_received_for_epoch, h, hcmp, he]

lemma start_epoch_fst_arrived (s : ChalithState) :
    (start_epoch s).1.current_input_components = s.current_input_components := by
  unfold start_epoch process_epoch
  split <;> rfl

lemma start_epoch_fst_inputs (s : ChalithState) :
    (start_epoch s).1.input_components = s.input_components := by
  unfold start_epoch process_epoch
  split <;> rfl

lemma handler_fst_inputs (s : ChalithState) (m : ChalithMessage) :
    (general_message_handler s m).1.input_components = s.input_components := by
  by_cases h1 : m.source_process_id ∈ s.input_components
  · by_cases h2 : m.source_process_id ∈ s.current_input_components
    · rw [handler_eq_of_duplicate s m h2]
    · rw [handler_accept s m h1 h2, start_epoch_fst_inputs]
  · rw [handler_eq_of_foreign s m h1]

lemma handler_arrived_mono (s : ChalithState) (m : ChalithMessage) :
    s.current_input_components ⊆ (general_message_handler s m).1.current_input_components := by
  by_cases h1 : m.source_process_id ∈ s.input_components
  · by_cases h2 : m.source_process_id ∈ s.current_input_components
    · rw [handler_eq_of_duplicate s m h2]
    · rw [handler_accept s m h1 h2, start_epoch_fst_arrived]
      exact Finset.subset_insert _ _
  · rw [handler_eq_of_foreign s m h1]

lemma handler_arrived_subset (s : ChalithState) (m : ChalithMessage)
    (h : s.current_input_components ⊆ s.input_components) :
    (general_message_handler s m).1.current_input_components ⊆ s.input_components := by
  by_cases h1 : m.source_process_id ∈ s.input_components
  · by_cases h2 : m.source_process_id ∈ s.current_input_components
    · rw [handler_eq_of_duplicate s m h2]; exact h
    · rw [handler_accept s m h1 h2, start_epoch_fst_arrived]
      exact Finset.insert_subset h1 h
  · rw [handler_eq_of_foreign s m h1]; exact h

lemma runFrom_of_complete (ms : List ChalithMessage) : ∀ s : ChalithState,
    s.current_input_components = s.input_components → runFrom s ms = (s, []) := by
  induction ms with
  | nil => intro s _; rfl
  | cons m rest ih =>
    intro s h
    have h1 : runFrom s (m :: rest) = runFrom s rest := by
      rw [show runFrom s (m :: rest) =
        ((runFrom (general_message_handler s m).1 rest).1,
          (general_message_handler s m).2.toList ++
            (runFrom (general_message_handler s m).1 rest).2) from rfl,
        handler_of_complete s m h]
      rfl
    rw [h1, ih s h]

lemma acceptedValues_of_complete (ms : List ChalithMessage) : ∀ s : ChalithState,
    s.current_input_components = s.input_components → acceptedValues s ms = [] := by
  induction ms with
  | nil => intro s _; rfl
  | cons m rest ih =>
    intro s h
    by_cases h1 : m.source_process_id ∈ s.input_components
    · have h2 : m.source_process_id ∈ s.current_input_components := by rw [h]; exact h1
      simp [acceptedValues, h1, h2, ih s h]
    · simp [acceptedValues, h1, ih s h]

lemma runFrom_fst_inputs (ms : List ChalithMessage) : ∀ s : ChalithState,
    (runFrom s ms).1.input_components = s.input_components := by
  induction ms with
  | nil => intro s; rfl
  | cons m rest ih =>
    intro s
    rw [runFrom_cons_fst, ih, handler_fst_inputs]

lemma runFrom_arrived_subset (ms : List ChalithMessage) : ∀ s : ChalithState,
    s.current_input_components ⊆ s.input_components →
    (runFrom s ms).1.current_input_components ⊆ s.input_components := by
  induction ms with
  | nil => intro s h; exact h
  | cons m rest ih =>
    intro s h
    rw [runFrom_cons_fst]
    have h' : (general_message_handler s m).1.current_input_components ⊆
        (general_message_handler s m).1.input_components := by
      rw [handler_fst_inputs]; exact handler_arrived_subset s m h
    have h'' := ih (general_message_handler s m).1 h'
    rw [handler_fst_inputs] at h''
    exact h''

lemma runFrom_append_fst (l1 l2 : List ChalithMessage) : ∀ s : ChalithState,
    (runFrom s (l1 ++ l2)).1 = (runFrom (runFrom s l1).1 l2).1 := by
  induction l1 with
  | nil => intro s; rfl
  | cons m rest ih =>
    intro s
    rw [List.cons_append, runFrom_cons_fst, runFrom_cons_fst, ih]

lemma on_epoch_start_fst_arrived (s : ChalithState) (e : Nat) :
    (on_epoch_start s e).1.current_input_components = ∅ := by
  unfold on_epoch_start
  rw [start_epoch_fst_arrived]
  rfl

lemma on_epoch_start_fst_inputs (s : ChalithState) (e : Nat) :
    (on_epoch_start s e).1.input_components = s.input_components := by
  unfold on_epoch_start
  rw [start_epoch_fst_inputs]
  rfl

lemma handler_accept_complete (s : ChalithState) (m : ChalithMessage)
    (h1 : m.source_process_id ∈ s.input_components)
    (h2 : m.source_process_id ∉ s.current_input_components)
    (hc : insert m.source_process_id s.current_input_components = s.input_components)
    (hcmp : s.completed_epoch ≠ some s.latest_epoch) :
    general_message_handler s m =
      ({ s with
          current_input_components := insert m.source_process_id s.current_input_components
          current_message := s.current_message ++ m.chalith_value ++ s.chalith_value
          triggering_message_ids := s.triggering_message_ids ++ [m.message_id]
          completed_epoch := some s.latest_epoch },
        some ⟨s.latest_epoch, s.triggering_message_ids ++ [m.message_id],
          s.current_message ++ m.chalith_value ++ s.chalith_value⟩) := by
  rw [handler_accept s m h1 h2]
  exact start_epoch_complete _ hcmp hc.symm (Finset.insert_ne_empty _ _)

lemma handler_accept_not_complete (s : ChalithState) (m : ChalithMessage)
    (h1 : m.source_process_id ∈ s.input_components)
    (h2 : m.source_process_id ∉ s.current_input_components)
    (hc : insert m.source_process_id s.current_input_components ≠ s.input_components) :
    general_message_handler s m =
      ({ s with
          current_input_components := insert m.source_process_id s.current_input_components
          current_message := s.current_message ++ m.chalith_value
          triggering_message_ids := s.triggering_message_ids ++ [m.message_id] },
        none) := by
  rw [handler_accept s m h1 h2]
  exact start_epoch_of_not_complete _ (fun hh => hc hh.symm)

lemma runFrom_count (ms : List ChalithMessage) : ∀ s : ChalithState,
    s.current_input_components ⊆ s.input_components →
    s.current_input_components ≠ s.input_components →
    s.completed_epoch ≠ some s.latest_epoch →
    (runFrom s ms).2.length =
      if (runFrom s ms).1.current_input_components = (runFrom s ms).1.input_components
      then 1 else 0 := by
  induction ms with
  | nil =>
    intro s _ hne _
    simp [runFrom, hne]
  | cons m rest ih =>
    intro s hsub hne hcmp
    by_cases h1 : m.source_process_id ∈ s.input_components
    · by_cases h2 : m.source_process_id ∈ s.current_input_components
      · have hstep : runFrom s (m :: rest) = runFrom s rest := by
          rw [show runFrom s (m :: rest) =
            ((runFrom (general_message_handler s m).1 rest).1,
              (general_message_handler s m).2.toList ++
                (runFrom (general_message_handler s m).1 rest).2) from rfl,
            handler_eq_of_duplicate s m h2]
          rfl
        rw [hstep]
        exact ih s hsub hne hcmp
      · by_cases hc : insert m.source_process_id s.current_input_components = s.input_components
        · have hstep : runFrom s (m :: rest) =
              ((runFrom { s with
                  current_input_components := insert m.source_process_id s.current_input_components
                  current_message := s.current_message ++ m.chalith_value ++ s.chalith_value
                  triggering_message_ids := s.triggering_message_ids ++ [m.message_id]
                  completed_epoch := some s.latest_epoch } rest).1,
                ⟨s.latest_epoch, s.triggering_message_ids ++ [m.message_id],
                  s.current_message ++ m.chalith_value ++ s.chalith_value⟩ ::
                  (runFrom { s with
                    current_input_components := insert m.source_process_id s.current_input_components
                    current_message := s.current_message ++ m.chalith_value ++ s.chalith_value
                    triggering_message_ids := s.triggering_message_ids ++ [m.message_id]
                    completed_epoch := some s.latest_epoch } rest).2) := by
            rw [show runFrom s (m :: rest) =
              ((runFrom (general_message_handler s m).1 rest).1,
                (general_message_handler s m).2.toList ++
                  (runFrom (general_message_handler s m).1 rest).2) from rfl,
              handler_accept_complete s m h1 h2 hc hcmp]
            rfl
          rw [hstep, runFrom_of_complete rest _ (by simpa using hc)]
          simp [hc]
        · have hstep : runFrom s (m :: rest) =
              runFrom { s with
                current_input_components := insert m.source_process_id s.current_input_components
                current_message := s.current_message ++ m.chalith_value
                triggering_message_ids := s.triggering_message_ids ++ [m.message_id] } rest := by
            rw [show runFrom s (m :: rest) =
              ((runFrom (general_message_handler s m).1 rest).1,
                (general_message_handler s m).2.toList ++
                  (runFrom (general_message_handler s m).1 rest).2) from rfl,
              handler_accept_not_complete s m h1 h2 hc]
            rfl
          rw [hstep]
          exact ih _ (Finset.insert_subset h1 hsub) hc hcmp
    · have hstep : runFrom s (m :: rest) = runFrom s rest := by
        rw [show runFrom s (m :: rest) =
          ((runFrom (general_message_handler s m).1 rest).1,
            (general_message_handler s m).2.toList ++
              (runFrom (general_message_handler s m).1 rest).2) from rfl,
          handler_eq_of_foreign s m h1]
        rfl
      rw [hstep]
      exact ih s hsub hne hcmp

lemma runFrom_value (ms : List ChalithMessage) : ∀ s : ChalithState,
    s.current_input_components ⊆ s.input_components →
    s.current_input_components ≠ s.input_components →
    s.completed_epoch ≠ some s.latest_epoch →
    ∀ env ∈ (runFrom s ms).2,
      env.chalith_value =
        s.current_message ++ concatAll (acceptedValues s ms) ++ s.chalith_value := by
  induction ms with
  | nil =>
    intro s _ _ _ env henv
    simp [runFrom] at henv
  | cons m rest ih =>
    intro s hsub hne hcmp env henv
    by_cases h1 : m.source_process_id ∈ s.input_components
    · by_cases h2 : m.source_process_id ∈ s.current_input_components
      · have hstep : runFrom s (m :: rest) = runFrom s rest := by
          rw [show runFrom s (m :: rest) =
            ((runFrom (general_message_handler s m).1 rest).1,
              (general_message_handler s m).2.toList ++
                (runFrom (general_message_handler s m).1 rest).2) from rfl,
            handler_eq_of_duplicate s m h2]
          rfl
        rw [hstep] at henv
        have hacc : acceptedValues s (m :: rest) = acceptedValues s rest := by
          simp [acceptedValues, h1, h2]
        rw [hacc]
        exact ih s hsub hne hcmp env henv
      · by_cases hc : insert m.source_process_id s.current_input_components = s.input_components
        · have hstep : runFrom s (m :: rest) =
              ((runFrom { s with
                  current_input_components := insert m.source_process_id s.current_input_components
                  current_message := s.current_message ++ m.chalith_value ++ s.chalith_value
                  triggering_message_ids := s.triggering_message_ids ++ [m.message_id]
                  completed_epoch := some s.latest_epoch } rest).1,
                ⟨s.latest_epoch, s.triggering_message_ids ++ [m.message_id],
                  s.current_message ++ m.chalith_value ++ s.chalith_value⟩ ::
                  (runFrom { s with
                    current_input_components := insert m.source_process_id s.current_input_components
                    current_message := s.current_message ++ m.chalith_value ++ s.chalith_value
                    triggering_message_ids := s.triggering_message_ids ++ [m.message_id]
                    completed_epoch := some s.latest_epoch } rest).2) := by
            rw [show runFrom s (m :: rest) =
              ((runFrom (general_message_handler s m).1 rest).1,
                (general_message_handler s m).2.toList ++
                  (runFrom (general_message_handler s m).1 rest).2) from rfl,
              handler_accept_complete s m h1 h2 hc hcmp]
            rfl
          rw [hstep, runFrom_of_complete rest _ (by simpa using hc)] at henv
          have henv' : env = ⟨s.latest_epoch, s.triggering_message_ids ++ [m.message_id],
              s.current_message ++ m.chalith_value ++ s.chalith_value⟩ := by
            simpa using henv
          have h3 : acceptedValues (general_message_handler s m).1 rest = [] := by
            rw [handler_accept_complete s m h1 h2 hc hcmp]
            exact acceptedValues_of_complete rest _ (by simpa using hc)
          have hacc : acceptedValues s (m :: rest) = [m.chalith_value] := by
            simp [acceptedValues, h1, h2, h3]
          rw [hacc, henv']
          simp [concatAll, String.append_assoc]
        · have hstep : runFrom s (m :: rest) =
              runFrom { s with
                current_input_components := insert m.source_process_id s.current_input_components
                current_message := s.current_message ++ m.chalith_value
                triggering_message_ids := s.triggering_message_ids ++ [m.message_id] } rest := by
            rw [show runFrom s (m :: rest) =
              ((runFrom (general_message_handler s m).1 rest).1,
                (general_message_handler s m).2.toList ++
                  (runFrom (general_message_handler s m).1 rest).2) from rfl,
              handler_accept_not_complete s m h1 h2 hc]
            rfl
          rw [hstep] at henv
          have hrec := ih { s with
              current_input_components := insert m.source_process_id s.current_input_components
              current_message := s.current_message ++ m.chalith_value
              triggering_message_ids := s.triggering_message_ids ++ [m.message_id] }
            (Finset.insert_subset h1 hsub) hc hcmp env henv
          have hacc : acceptedValues s (m :: rest) =
              m.chalith_value :: acceptedValues { s with
                current_input_components := insert m.source_process_id s.current_input_components
                current_message := s.current_message ++ m.chalith_value
                triggering_message_ids := s.triggering_message_ids ++ [m.message_id] } rest := by
            simp [acceptedValues, h1, h2, handler_accept_not_complete s m h1 h2 hc]
          rw [hacc, hrec]
          simp [concatAll, String.append_assoc]
    · have hstep : runFrom s (m :: rest) = runFrom s rest := by
        rw [show runFrom s (m :: rest) =
          ((runFrom (general_message_handler s m).1 rest).1,
            (general_message_handler s m).2.toList ++
              (runFrom (general_message_handler s m).1 rest).2) from rfl,
          handler_eq_of_foreign s m h1]
        rfl
      rw [hstep] at henv
      have hacc : acceptedValues s (m :: rest) = acceptedValues s rest := by
        simp [acceptedValues, h1]
      rw [hacc]
      exact ih s hsub hne hcmp env henv

lemma runEpoch_fst (inputs : Finset String) (cv : String) (e : Nat)
    (ms : List ChalithMessage) :
    (runEpoch inputs cv e ms).1 =
      (runFrom (on_epoch_start (initialState inputs cv) e).1 ms).1 := rfl

lemma runFrom_singleton_fst (s : ChalithState) (m : ChalithMessage) :
    (runFrom s [m]).1 = (general_message_handler s m).1 := rfl

lemma runFrom_count_pred (ms : List ChalithMessage) (s : ChalithState)
    (hsub : s.current_input_components ⊆ s.input_components)
    (hne : s.current_input_components ≠ s.input_components)
    (hcmp : s.completed_epoch ≠ some s.latest_epoch) :
    (runFrom s ms).2.length =
      if all_messages_received_for_epoch (runFrom s ms).1 = true then 1 else 0 := by
  rw [runFrom_count ms s hsub hne hcmp]
  by_cases h : (runFrom s ms).1.current_input_components = (runFrom s ms).1.input_components
  · simp [h, all_messages_received_for_epoch]
  · have h2 : (runFrom s ms).1.input_components ≠ (runFrom s ms).1.current_input_components :=
      fun hh => h hh.symm
    simp [h, all_messages_received_for_epoch, h2]

lemma on_epoch_start_of_empty (cv : String) (e : Nat) :
    on_epoch_start (initialState ∅ cv) e =
      (⟨cv, ∅, cv, ∅, [], e, some e⟩, some ⟨e, [], cv⟩) := by
  simp [on_epoch_start, epochStart, clear_epoch_variables, initialState, start_epoch,
    process_epoch, all_messages_received_for_epoch]

lemma on_epoch_start_of_nonempty (inputs : Finset String) (cv : String) (e : Nat)
    (hE : inputs ≠ ∅) :
    on_epoch_start (initialState inputs cv) e =
      (epochStart (initialState inputs cv) e, none) := by
  unfold on_epoch_start
  exact start_epoch_of_not_complete _
    (by simp [epochStart, clear_epoch_variables, initialState, hE])

/-- C7: within one epoch the arrived set stays inside the Expected Set at
every observation point, and handling one more message never shrinks it:
after any messages `ms` the arrived set is a subset of the configured
Expected Set, and it is contained in the arrived set after one further
message `m`. -/
theorem arrived_subset_expected_and_monotone (inputs : Finset String) (cv : String)
    (e : Nat) (ms : List ChalithMessage) (m : ChalithMessage) :
    (runEpoch inputs cv e ms).1.current_input_components ⊆ inputs ∧
      (runEpoch inputs cv e ms).1.current_input_components ⊆
        (runEpoch inputs cv e (ms ++ [m])).1.current_input_components := by
  have h0 : (on_epoch_start (initialState inputs cv) e).1.current_input_components ⊆
      (on_epoch_start (initialState inputs cv) e).1.input_components := by
    rw [on_epoch_start_fst_arrived]
    exact Finset.empty_subset _
  constructor
  · have h1 := runFrom_arrived_subset ms _ h0
    rw [on_epoch_start_fst_inputs] at h1
    rw [runEpoch_fst]
    exact h1
  · rw [runEpoch_fst, runEpoch_fst, runFrom_append_fst, runFrom_singleton_fst]
    exact handler_arrived_mono _ m

/-- C8: over a whole epoch, exactly one result envelope is published when
the run reaches completion and none otherwise; applied to every prefix of
the message sequence this says no envelope is ever published before the
completion predicate holds, and exactly one once it does. -/
theorem one_envelope_exactly_when_complete (inputs : Finset String) (cv : String)
    (e : Nat) (ms : List ChalithMessage) :
    (runEpoch inputs cv e ms).2.length =
      if all_messages_received_for_epoch (runEpoch inputs cv e ms).1 = true
      then 1 else 0 := by
  by_cases hE : inputs = (∅ : Finset String)
  · subst hE
    rw [runEpoch_eq, on_epoch_start_of_empty,
      runFrom_of_complete ms (⟨cv, ∅, cv, ∅, [], e, some e⟩ : ChalithState) rfl]
    simp [all_messages_received_for_epoch]
  · rw [runEpoch_eq, on_epoch_start_of_nonempty inputs cv e hE]
    have hsub : (epochStart (initialState inputs cv) e).current_input_components ⊆
        (epochStart (initialState inputs cv) e).input_components := by
      simp [epochStart, clear_epoch_variables, initialState]
    have hne : (epochStart (initialState inputs cv) e).current_input_components ≠
        (epochStart (initialState inputs cv) e).input_components := by
      simpa [epochStart, clear_epoch_variables, initialState] using Ne.symm hE
    have hcmp : (epochStart (initialState inputs cv) e).completed_epoch ≠
        some (epochStart (initialState inputs cv) e).latest_epoch := by
      simp [epochStart, clear_epoch_variables, initialState]
    have hcount := runFrom_count_pred ms _ hsub hne hcmp
    simpa using hcount

/-- C10: every envelope published during an epoch carries, as its value,
the arrival-order concatenation of the accepted peer contributions
followed by the component's own configured `chalith_value`; when no peer
contribution was accepted this is exactly `chalith_value`. -/
theorem published_value_is_fold_of_accepted (inputs : Finset String) (cv : String)
    (e : Nat) (ms : List ChalithMessage) (env : OutMsg)
    (h : env ∈ (runEpoch inputs cv e ms).2) :
    env.chalith_value =
      concatAll (acceptedValues (epochStart (initialState inputs cv) e) ms) ++ cv := by
  by_cases hE : inputs = (∅ : Finset String)
  · subst hE
    rw [runEpoch_eq, on_epoch_start_of_empty,
      runFrom_of_complete ms (⟨cv, ∅, cv, ∅, [], e, some e⟩ : ChalithState) rfl] at h
    have henv : env = ⟨e, [], cv⟩ := by simpa using h
    have hacc : acceptedValues (epochStart (initialState ∅ cv) e) ms = [] :=
      acceptedValues_of_complete ms _
        (by simp [epochStart, clear_epoch_variables, initialState])
    rw [henv, hacc]
    simp [concatAll]
  · rw [runEpoch_eq, on_epoch_start_of_nonempty inputs cv e hE] at h
    have h' : env ∈ (runFrom (epochStart (initialState inputs cv) e) ms).2 := by
      simpa using h
    have hsub : (epochStart (initialState inputs cv) e).current_input_components ⊆
        (epochStart (initialState inputs cv) e).input_components := by
      simp [epochStart, clear_epoch_variables, initialState]
    have hne : (epochStart (initialState inputs cv) e).current_input_components ≠
        (epochStart (initialState inputs cv) e).input_components := by
      simpa [epochStart, clear_epoch_variables, initialState] using Ne.symm hE
    have hcmp : (epochStart (initialState inputs cv) e).completed_epoch ≠
        some (epochStart (initialState inputs cv) e).latest_epoch := by
      simp [epochStart, clear_epoch_variables, initialState]
    have hval := runFrom_value ms _ hsub hne hcmp env h'
    rw [hval]
    simp [epochStart, clear_epoch_variables, initialState]

/-- C10 witness: in an epoch with Expected Set consisting of A and own
value z, the single envelope published after A contributes x carries the
value xz, which is the accepted value x followed by z. -/
theorem published_value_is_fold_of_accepted_witness :
    (⟨1, ["m1"], "xz"⟩ : OutMsg).chalith_value =
      concatAll (acceptedValues (epochStart (initialState {"A"} "z") 1)
        [⟨"A", "x", "m1", 1⟩]) ++ "z" :=
  published_value_is_fold_of_accepted {"A"} "z" 1 [⟨"A", "x", "m1", 1⟩]
    ⟨1, ["m1"], "xz"⟩ (by decide)

/-- C9: `ChalithMessage.from_json` is a total function: whatever the
constructor does on the input dictionary, `from_json` returns the
constructed message when construction succeeds, and returns `None`
(instead of propagating the exception) exactly when construction fails
with a type, value or message error. -/
theorem from_json_total_characterization {α : Type}
    (ctor : α → Except CtorError ChalithMessage) (j : α) :
    (∀ m, ChalithMessage.from_json ctor j = some m ↔ ctor j = Except.ok m) ∧
      (ChalithMessage.from_json ctor j = none ↔ ∃ er, ctor j = Except.error er) := by
  cases h : ctor j <;> simp [ChalithMessage.from_json, h]
